import Mathlib

/-
Verification of the LogiLinux MX keypad device driver
(src/lib/src/devices/mx_keypad_device.cpp) against its design document.

The image packetizer, the input-report decoder and the guard logic of the
public operations are embedded as executable Lean functions that mirror the
C++ source line by line; the effectful parts (channel writes, thread
lifecycle) are embedded as explicit state passing plus action traces, with
the outcomes of the two writev attempts passed in as oracle values.
-/

namespace LogiLinux

/-! ## Protocol constants (mx_keypad_device.cpp / mx_keypad_device.h) -/

def MAX_PACKET_SIZE : Nat := 4095
def LCD_SIZE : Nat := 118
def SCREEN_WIDTH : Nat := 434
def SCREEN_HEIGHT : Nat := 434

/-- Size of the first-packet header (local constant PACKET1_HEADER). -/
def PACKET1_HEADER : Nat := 20

/-- Size of every subsequent-packet header (local constant SUBSEQUENT_HEADER). -/
def SUBSEQUENT_HEADER : Nat := 5

/-! ## Image packetizer -/

/-- One outbound protocol packet.  The source builds each packet inside a
capacity-sized buffer: memset the buffer to zero, memcpy the header to
offset 0, memcpy the payload right behind the header; the rest of the
buffer stays zero.  We keep header and payload separate and render the
full padded buffer with Packet.bytes. -/
structure Packet where
  header : List Nat
  payload : List Nat
deriving DecidableEq

/-- The full capacity-sized buffer a packet occupies on the wire:
header, then payload, then zero padding up to MAX_PACKET_SIZE
(memset-to-zero before the two memcpy calls). -/
def Packet.bytes (p : Packet) : List Nat :=
  p.header ++ p.payload ++
    List.replicate (MAX_PACKET_SIZE - p.header.length - p.payload.length) 0

/-- generateWritePacketByte: value = uint8(index | 0x20), then
value |= 0x80 when isFirst, value |= 0x40 when isLast. -/
def generateWritePacketByte (index : Nat) (isFirst isLast : Bool) : Nat :=
  let value := (index ||| 0x20) % 256
  let value := if isFirst then value ||| 0x80 else value
  if isLast then value ||| 0x40 else value

/-- The 20-byte first-packet header of generateRawImagePackets: the 4-byte
signature 14 ff 02 2b, the sequence-control byte for part 1 (first; also
last when the whole payload fits behind the 20-byte header), geometry tag
bytes 01 00 01 00, big-endian x, y, width, height, a zero byte, and the
16-bit big-endian total payload length.  (The source memcpys a 6-byte
geometry tag to offsets 5..10 and then overwrites offsets 9 and 10 with
the x field, so only 01 00 01 00 of it survives.) -/
def firstPacketHeader (x y width height size : Nat) : List Nat :=
  [0x14, 0xff, 0x02, 0x2b,
   generateWritePacketByte 1 true (decide (size ≤ MAX_PACKET_SIZE - PACKET1_HEADER)),
   0x01, 0x00, 0x01, 0x00,
   x / 256 % 256, x % 256,
   y / 256 % 256, y % 256,
   width / 256 % 256, width % 256,
   height / 256 % 256, height % 256,
   0x00,
   size / 256 % 256, size % 256]

/-- The subsequent-packet loop of generateRawImagePackets: while bytes
remain, emit a packet with the 5-byte header (signature plus the
sequence-control byte of the current part; last iff this chunk drains the
remainder) carrying up to MAX_PACKET_SIZE - SUBSEQUENT_HEADER payload
bytes.  The loop consumes at least one byte per iteration, so a fuel
argument bounded below by the remaining length makes the recursion
structural. -/
def chunkGo : Nat → List Nat → Nat → List Packet
  | _, [], _ => []
  | 0, _ :: _, _ => []
  | fuel + 1, b :: rest, part =>
    { header := [0x14, 0xff, 0x02, 0x2b,
                 generateWritePacketByte part false
                   (decide ((b :: rest).length
                      - min (b :: rest).length (MAX_PACKET_SIZE - SUBSEQUENT_HEADER) = 0))],
      payload := (b :: rest).take (min (b :: rest).length (MAX_PACKET_SIZE - SUBSEQUENT_HEADER)) }
      :: chunkGo fuel
          ((b :: rest).drop (min (b :: rest).length (MAX_PACKET_SIZE - SUBSEQUENT_HEADER)))
          (part + 1)

/-- The subsequent packets for the bytes remaining after the first packet,
starting at part index 2 in the source. -/
def chunkRemaining (remaining : List Nat) (part : Nat) : List Packet :=
  chunkGo remaining.length remaining part

/-- generateRawImagePackets: first packet carries the 20-byte header and up
to MAX_PACKET_SIZE - PACKET1_HEADER payload bytes; the rest of the data is
chunked into subsequent packets starting at part index 2. -/
def generateRawImagePackets (x y width height : Nat) (jpegData : List Nat) :
    List Packet :=
  let byteCount1 := min jpegData.length (MAX_PACKET_SIZE - PACKET1_HEADER)
  { header := firstPacketHeader x y width height jpegData.length,
    payload := jpegData.take byteCount1 }
    :: chunkRemaining (jpegData.drop byteCount1) 2

/-- generateImagePackets: per-key variant; row = keyIndex / 3,
col = keyIndex % 3, x = 23 + col * (118 + 40), y = 6 + row * (118 + 40),
width = height = LCD_SIZE.  The chunking is identical to the raw variant. -/
def generateImagePackets (keyIndex : Nat) (jpegData : List Nat) : List Packet :=
  let row := keyIndex / 3
  let col := keyIndex % 3
  generateRawImagePackets (23 + col * (118 + 40)) (6 + row * (118 + 40))
    LCD_SIZE LCD_SIZE jpegData

/-! ## Input-report decoder (startMonitoring polling loop body) -/

inductive EventType where
  | press
  | release
deriving DecidableEq

/-- ButtonEvent as produced by the monitoring loop; the wall-clock
timestamp field is omitted from the embedding (real time). -/
structure ButtonEvent where
  type : EventType
  button_code : Nat
  pressed : Bool
deriving DecidableEq

/-- Cross-report state of the input decoder: the set of currently pressed
grid buttons (std::set, modelled as a strictly ascending list) and the
last pressed P-button code (0 meaning none). -/
structure DecoderState where
  pressed_buttons : List Nat
  last_p_button : Nat
deriving DecidableEq

/-- Navigation (P-button) shape test: at least 6 bytes read and the fixed
prefix 11 ff 0b 00. -/
def isPButtonEvent (report : List Nat) : Bool :=
  decide (6 ≤ report.length) && (report.getD 0 0 == 0x11) && (report.getD 1 0 == 0xff)
    && (report.getD 2 0 == 0x0b) && (report.getD 3 0 == 0x00)

/-- Grid shape test: at least 7 bytes read, prefix 13 ff 02 00, and byte 5
equal to 01. -/
def isGridReport (report : List Nat) : Bool :=
  decide (7 ≤ report.length) && (report.getD 0 0 == 0x13) && (report.getD 1 0 == 0xff)
    && (report.getD 2 0 == 0x02) && (report.getD 3 0 == 0x00) && (report.getD 5 0 == 0x01)

/-- Ordered insertion without duplicates: std::set insert for uint8 keys. -/
def setInsert (x : Nat) : List Nat → List Nat
  | [] => [x]
  | y :: ys => if x < y then x :: y :: ys else if x = y then y :: ys else y :: setInsert x ys

/-- The grid-report scan from byte 6 on: stop at the first zero byte,
insert code - 1 into the current-pressed set for every code in 1..9,
ignore any other byte. -/
def collectPressed (bytes : List Nat) (acc : List Nat) : List Nat :=
  match bytes with
  | [] => acc
  | b :: rest =>
    if b = 0 then acc
    else if 1 ≤ b ∧ b ≤ 9 then collectPressed rest (setInsert (b - 1) acc)
    else collectPressed rest acc

/-- One iteration of the monitoring loop on a report that was read:
P-button detection first (press: emit and remember the code; release with
a remembered code: emit it and clear); grid processing only when the
report was not P-shaped: decode the current pressed set, emit presses for
current minus previous in ascending order, then releases for previous
minus current in stored order, and replace the stored set. -/
def processReport (st : DecoderState) (report : List Nat) :
    List ButtonEvent × DecoderState :=
  if isPButtonEvent report then
    if report.getD 4 0 = 0x01 ∧ (report.getD 5 0 = 0xa1 ∨ report.getD 5 0 = 0xa2) then
      ([{ type := EventType.press, button_code := report.getD 5 0, pressed := true }],
       { st with last_p_button := report.getD 5 0 })
    else if report.getD 4 0 = 0x00 ∧ st.last_p_button ≠ 0 then
      ([{ type := EventType.release, button_code := st.last_p_button, pressed := false }],
       { st with last_p_button := 0 })
    else ([], st)
  else if isGridReport report then
    let current_pressed := collectPressed (report.drop 6) []
    let presses := (current_pressed.filter
        (fun c => !(st.pressed_buttons.contains c))).map
        (fun c => { type := EventType.press, button_code := c, pressed := true })
    let releases := (st.pressed_buttons.filter
        (fun c => !(current_pressed.contains c))).map
        (fun c => { type := EventType.release, button_code := c, pressed := false })
    (presses ++ releases, { st with pressed_buttons := current_pressed })
  else ([], st)

/-- The codes of the press events of a report, in emission order. -/
def pressCodes (events : List ButtonEvent) : List Nat :=
  (events.filter (fun e => e.pressed)).map (fun e => e.button_code)

/-- The codes of the release events of a report, in emission order. -/
def releaseCodes (events : List ButtonEvent) : List Nat :=
  (events.filter (fun e => !e.pressed)).map (fun e => e.button_code)

/-! ## Channel writer (setKeyImage / setRawImage transmit path) -/

/-- Outcome of one writev call: the byte count it returned, or -1 with the
given errno value. -/
inductive WriteResult where
  | ok : Nat → WriteResult
  | err : Nat → WriteResult
deriving DecidableEq

def EAGAIN : Nat := 11
def EWOULDBLOCK : Nat := 11

/-- The transmit path shared by setKeyImage and setRawImage: one
non-blocking writev over the whole iovec array (one entry per packet,
each MAX_PACKET_SIZE bytes); on failure with errno EAGAIN/EWOULDBLOCK one
blocking writev over the same array; success iff the consulted attempt
returned exactly packetCount * MAX_PACKET_SIZE bytes.  The two writev
outcomes are oracle inputs. -/
def transmitPackets (packets : List Packet)
    (nonblockingResult blockingResult : WriteResult) : Bool :=
  let expectedTotal := packets.length * MAX_PACKET_SIZE
  match nonblockingResult with
  | WriteResult.ok totalWritten => totalWritten == expectedTotal
  | WriteResult.err e =>
    if e = EAGAIN ∨ e = EWOULDBLOCK then
      match blockingResult with
      | WriteResult.ok totalWritten => totalWritten == expectedTotal
      | WriteResult.err _ => false
    else false

/-- The pre-transmit part of setKeyImage: reject key index outside 0..8 or
an uninitialized session, generate the packets, reject an empty packet
list; some packets means the transmit path is reached with exactly these
packets. -/
def setKeyImagePackets (keyIndex : Int) (initialized : Bool)
    (jpegData : List Nat) : Option (List Packet) :=
  if keyIndex < 0 ∨ 8 < keyIndex ∨ initialized = false then none
  else
    let packets := generateImagePackets keyIndex.toNat jpegData
    if packets.isEmpty then none
    else some packets

/-- setKeyImage: guards, then the non-blocking/blocking transmit. -/
def setKeyImage (keyIndex : Int) (initialized : Bool) (jpegData : List Nat)
    (nonblockingResult blockingResult : WriteResult) : Bool :=
  match setKeyImagePackets keyIndex initialized jpegData with
  | none => false
  | some packets => transmitPackets packets nonblockingResult blockingResult

/-- The pre-transmit part of setRawImage: reject an uninitialized session,
generate the packets, reject an empty packet list. -/
def setRawImagePackets (x y width height : Nat) (initialized : Bool)
    (jpegData : List Nat) : Option (List Packet) :=
  if initialized = false then none
  else
    let packets := generateRawImagePackets x y width height jpegData
    if packets.isEmpty then none
    else some packets

/-- setRawImage: guards, then the non-blocking/blocking transmit. -/
def setRawImage (x y width height : Nat) (initialized : Bool)
    (jpegData : List Nat) (nonblockingResult blockingResult : WriteResult) : Bool :=
  match setRawImagePackets x y width height initialized jpegData with
  | none => false
  | some packets => transmitPackets packets nonblockingResult blockingResult

/-- setScreenImage forwards to setRawImage at rectangle
(23, 6, SCREEN_WIDTH, SCREEN_HEIGHT). -/
def setScreenImagePackets (initialized : Bool) (jpegData : List Nat) :
    Option (List Packet) :=
  setRawImagePackets 23 6 SCREEN_WIDTH SCREEN_HEIGHT initialized jpegData

/-! ## Animation scheduler (setKeyGif / setScreenGif lifecycle)

The GIF decoding collaborator is external (gif_decoder.h); its outcome is
passed in as an Option GifAnimation oracle.  The side effects on task
objects (clearing the run flag, joining the worker, starting the new
worker, storing the task) are recorded as an ordered action trace. -/

structure GifFrame where
  jpeg_data : List Nat
  delay_ms : Nat
deriving DecidableEq

structure GifAnimation where
  frames : List GifFrame
  loop : Bool
deriving DecidableEq

inductive AnimTarget where
  | key : Nat → AnimTarget
  | screen
deriving DecidableEq

/-- The observable side effects of the animation lifecycle code, in
program order: setting a task run flag to false, joining its worker
thread, starting a new worker (anim running = true, thread launched), and
storing the new task in the map / screen slot. -/
inductive AnimAction where
  | setRunningFalse : Nat → AnimAction
  | joinThread : Nat → AnimAction
  | startThread : Nat → AnimAction
  | store : AnimTarget → Nat → AnimAction
deriving DecidableEq

/-- Animation bookkeeping of Impl: the per-key map of animation tasks and
the screen task, each task named by an id; nextTaskId names the task a
fresh make_unique would produce. -/
structure AnimState where
  animations : List (Nat × Nat)
  screen_animation : Option Nat
  nextTaskId : Nat
deriving DecidableEq

/-- stopKeyAnimation: if the map holds a task for the key, set its run
flag false, join its thread, and erase the map entry. -/
def stopKeyAnimationM (s : AnimState) (keyIndex : Nat) :
    AnimState × List AnimAction :=
  match s.animations.lookup keyIndex with
  | none => (s, [])
  | some taskId =>
    ({ s with animations := s.animations.filter (fun p => !(p.1 == keyIndex)) },
     [AnimAction.setRunningFalse taskId, AnimAction.joinThread taskId])

/-- setKeyGif (and setKeyGifFromFile, whose control flow is identical):
reject invalid key or uninitialized session; stop any existing animation
on the key; decode (oracle); reject decode failure or zero frames; start
the worker and store the task. -/
def setKeyGifM (s : AnimState) (keyIndex : Int) (initialized : Bool)
    (decoded : Option GifAnimation) : Bool × AnimState × List AnimAction :=
  if keyIndex < 0 ∨ 8 < keyIndex ∨ initialized = false then (false, s, [])
  else
    let stopped := stopKeyAnimationM s keyIndex.toNat
    match decoded with
    | none => (false, stopped.1, stopped.2)
    | some animation =>
      if animation.frames.isEmpty then (false, stopped.1, stopped.2)
      else
        let taskId := stopped.1.nextTaskId
        (true,
         { stopped.1 with
             animations := (keyIndex.toNat, taskId) :: stopped.1.animations,
             nextTaskId := taskId + 1 },
         stopped.2 ++ [AnimAction.startThread taskId,
                       AnimAction.store (AnimTarget.key keyIndex.toNat) taskId])

/-- stopScreenAnimation: if a screen task exists, set its run flag false,
join its thread, and reset the slot. -/
def stopScreenAnimationM (s : AnimState) : AnimState × List AnimAction :=
  match s.screen_animation with
  | none => (s, [])
  | some taskId =>
    ({ s with screen_animation := none },
     [AnimAction.setRunningFalse taskId, AnimAction.joinThread taskId])

/-- setScreenGif (and setScreenGifFromFile): reject an uninitialized
session; stop any existing screen animation; decode (oracle); reject
decode failure or zero frames; start the worker and store the task. -/
def setScreenGifM (s : AnimState) (initialized : Bool)
    (decoded : Option GifAnimation) : Bool × AnimState × List AnimAction :=
  if initialized = false then (false, s, [])
  else
    let stopped := stopScreenAnimationM s
    match decoded with
    | none => (false, stopped.1, stopped.2)
    | some animation =>
      if animation.frames.isEmpty then (false, stopped.1, stopped.2)
      else
        let taskId := stopped.1.nextTaskId
        (true,
         { stopped.1 with
             screen_animation := some taskId,
             nextTaskId := taskId + 1 },
         stopped.2 ++ [AnimAction.startThread taskId,
                       AnimAction.store AnimTarget.screen taskId])

/-! ## Monitoring lifecycle (setEventCallback / startMonitoring) -/

/-- Monitoring-relevant session state: the monitoring flag and whether an
event callback is registered. -/
structure MonitorState where
  monitoring : Bool
  has_event_callback : Bool
deriving DecidableEq

/-- startMonitoring: return immediately when already monitoring or when no
callback is registered; otherwise set the flag and spawn the monitor
thread.  The Bool result records whether a thread was spawned. -/
def startMonitoringM (s : MonitorState) : MonitorState × Bool :=
  if s.monitoring = true ∨ s.has_event_callback = false then (s, false)
  else ({ s with monitoring := true }, true)

/-- setEventCallback: installs the callback. -/
def setEventCallbackM (s : MonitorState) : MonitorState :=
  { s with has_event_callback := true }

/-! ## Concurrent writers on the shared channel

The transmit path holds no lock: the source contains no mutex and no
queue, and a packet sequence reaches the kernel as one iovec entry per
packet.  Two threads writing concurrently may therefore be scheduled in
any order between per-packet submissions.  A schedule is a list of
Booleans choosing which of two writer threads submits its next packet;
the channel log is the resulting merge. -/

/-- One per-packet submission on the shared channel, tagged with the
submitting thread. -/
structure ChannelWrite where
  threadId : Nat
  packet : Packet
deriving DecidableEq

/-- Merge two per-thread submission streams under a schedule; once a
stream is drained, or the schedule runs out, the rest runs back to back. -/
def mergeSchedule : List Bool → List ChannelWrite → List ChannelWrite → List ChannelWrite
  | _, [], ys => ys
  | _, x :: xs, [] => x :: xs
  | [], x :: xs, y :: ys => (x :: xs) ++ (y :: ys)
  | true :: sched, x :: xs, y :: ys => x :: mergeSchedule sched xs (y :: ys)
  | false :: sched, x :: xs, y :: ys => y :: mergeSchedule sched (x :: xs) ys

/-- The channel log of two unsynchronized writer threads transmitting the
packet sequences a (thread 0) and b (thread 1) under the schedule. -/
def channelLog (a b : List Packet) (sched : List Bool) : List ChannelWrite :=
  mergeSchedule sched (a.map (fun p => { threadId := 0, packet := p }))
    (b.map (fun p => { threadId := 1, packet := p }))

/-- A thread transmitted contiguously in a log when, after its first block
of writes, no further write of that thread appears. -/
def writesContiguous (threadId : Nat) (log : List ChannelWrite) : Bool :=
  ((log.dropWhile (fun w => !(w.threadId == threadId))).dropWhile
      (fun w => w.threadId == threadId)).all (fun w => !(w.threadId == threadId))

/-! ## Packetizer lemmas -/

theorem chunkGo_length (fuel : Nat) :
    ∀ (remaining : List Nat) (part : Nat), remaining.length ≤ fuel →
      (chunkGo fuel remaining part).length
        = (remaining.length + (MAX_PACKET_SIZE - SUBSEQUENT_HEADER - 1))
            / (MAX_PACKET_SIZE - SUBSEQUENT_HEADER) := by
  induction fuel with
  | zero =>
    intro remaining part h
    have hnil : remaining = [] := List.eq_nil_of_length_eq_zero (Nat.le_zero.mp h)
    subst hnil
    simp [chunkGo, MAX_PACKET_SIZE, SUBSEQUENT_HEADER]
  | succ n ih =>
    intro remaining part h
    match remaining with
    | [] => simp [chunkGo, MAX_PACKET_SIZE, SUBSEQUENT_HEADER]
    | b :: rest =>
      rw [chunkGo, List.length_cons,
        ih _ (part + 1) (by
          simp only [List.length_drop, List.length_cons] at h ⊢
          simp only [MAX_PACKET_SIZE, SUBSEQUENT_HEADER]
          omega)]
      simp only [List.length_drop, List.length_cons,
        MAX_PACKET_SIZE, SUBSEQUENT_HEADER]
      omega

theorem chunkRemaining_length (remaining : List Nat) (part : Nat) :
    (chunkRemaining remaining part).length
      = (remaining.length + (MAX_PACKET_SIZE - SUBSEQUENT_HEADER - 1))
          / (MAX_PACKET_SIZE - SUBSEQUENT_HEADER) :=
  chunkGo_length remaining.length remaining part (Nat.le_refl _)

theorem chunkGo_payload_flatten (fuel : Nat) :
    ∀ (remaining : List Nat) (part : Nat), remaining.length ≤ fuel →
      ((chunkGo fuel remaining part).map Packet.payload).flatten = remaining := by
  induction fuel with
  | zero =>
    intro remaining part h
    have hnil : remaining = [] := List.eq_nil_of_length_eq_zero (Nat.le_zero.mp h)
    subst hnil
    simp [chunkGo]
  | succ n ih =>
    intro remaining part h
    match remaining with
    | [] => simp [chunkGo]
    | b :: rest =>
      rw [chunkGo]
      simp only [List.map_cons, List.flatten_cons]
      rw [ih _ (part + 1) (by
        simp only [List.length_drop, List.length_cons] at h ⊢
        simp only [MAX_PACKET_SIZE, SUBSEQUENT_HEADER]
        omega)]
      exact List.take_append_drop _ _

theorem chunkGo_sizes (fuel : Nat) :
    ∀ (remaining : List Nat) (part : Nat) (p : Packet),
      p ∈ chunkGo fuel remaining part →
      p.header.length = SUBSEQUENT_HEADER ∧
        p.payload.length ≤ MAX_PACKET_SIZE - SUBSEQUENT_HEADER := by
  induction fuel with
  | zero =>
    intro remaining part p hp
    cases remaining <;> simp [chunkGo] at hp
  | succ n ih =>
    intro remaining part p hp
    match remaining with
    | [] => simp [chunkGo] at hp
    | b :: rest =>
      rw [chunkGo] at hp
      rcases List.mem_cons.mp hp with hhead | htail
      · subst hhead
        refine ⟨rfl, ?_⟩
        simp only [List.length_take]
        simp only [MAX_PACKET_SIZE, SUBSEQUENT_HEADER]
        omega
      · exact ih _ (part + 1) p htail

theorem firstPacketHeader_length (x y width height size : Nat) :
    (firstPacketHeader x y width height size).length = PACKET1_HEADER := rfl

theorem generateRawImagePackets_length (x y width height : Nat)
    (jpegData : List Nat) :
    (generateRawImagePackets x y width height jpegData).length
      = 1 + (jpegData.length - (MAX_PACKET_SIZE - PACKET1_HEADER)
             + (MAX_PACKET_SIZE - SUBSEQUENT_HEADER - 1))
            / (MAX_PACKET_SIZE - SUBSEQUENT_HEADER) := by
  unfold generateRawImagePackets
  simp only [List.length_cons, chunkRemaining_length, List.length_drop]
  simp only [MAX_PACKET_SIZE, PACKET1_HEADER, SUBSEQUENT_HEADER]
  omega

theorem generateRawImagePackets_payload_flatten (x y width height : Nat)
    (jpegData : List Nat) :
    ((generateRawImagePackets x y width height jpegData).map Packet.payload).flatten
      = jpegData := by
  unfold generateRawImagePackets
  simp only [List.map_cons, List.flatten_cons]
  rw [chunkRemaining, chunkGo_payload_flatten _ _ 2 (Nat.le_refl _)]
  exact List.take_append_drop _ _

theorem generateRawImagePackets_sizes (x y width height : Nat)
    (jpegData : List Nat) (p : Packet)
    (hp : p ∈ generateRawImagePackets x y width height jpegData) :
    p.header.length + p.payload.length ≤ MAX_PACKET_SIZE := by
  unfold generateRawImagePackets at hp
  rcases List.mem_cons.mp hp with hhead | htail
  · subst hhead
    simp only [firstPacketHeader_length, List.length_take]
    simp only [MAX_PACKET_SIZE, PACKET1_HEADER]
    omega
  · have := chunkGo_sizes _ _ 2 p htail
    simp only [MAX_PACKET_SIZE, SUBSEQUENT_HEADER] at *
    omega

theorem Packet.bytes_length (p : Packet)
    (h : p.header.length + p.payload.length ≤ MAX_PACKET_SIZE) :
    p.bytes.length = MAX_PACKET_SIZE := by
  simp only [Packet.bytes, List.length_append, List.length_replicate]
  omega

theorem sum_map_const {α : Type} (l : List α) (f : α → Nat) (c : Nat)
    (h : ∀ a ∈ l, f a = c) : (l.map f).sum = l.length * c := by
  induction l with
  | nil => simp
  | cons a t ih =>
    simp only [List.map_cons, List.sum_cons, List.length_cons]
    rw [h a (List.mem_cons_self a t), ih (fun b hb => h b (List.mem_cons_of_mem a hb))]
    ring

theorem getD_replicate_zero : ∀ (n m : Nat), (List.replicate n (0 : Nat)).getD m 0 = 0
  | 0, 0 => rfl
  | 0, _ + 1 => rfl
  | _ + 1, 0 => rfl
  | n + 1, m + 1 => getD_replicate_zero n m

theorem Packet.bytes_padding (p : Packet) (j : Nat)
    (hj : p.header.length + p.payload.length ≤ j) :
    p.bytes.getD j 0 = 0 := by
  unfold Packet.bytes
  rw [List.getD_append_right _ _ _ _ (by simp only [List.length_append]; omega),
    getD_replicate_zero]

theorem chunkGo_ctrl (fuel : Nat) :
    ∀ (remaining : List Nat) (part i : Nat), remaining.length ≤ fuel →
      i < (chunkGo fuel remaining part).length →
      ((chunkGo fuel remaining part).getD i ⟨[], []⟩).header.getD 4 0
        = generateWritePacketByte (part + i) false
            (decide (i + 1 = (chunkGo fuel remaining part).length)) := by
  induction fuel with
  | zero =>
    intro remaining part i h hi
    have hnil : remaining = [] := List.eq_nil_of_length_eq_zero (Nat.le_zero.mp h)
    subst hnil
    simp [chunkGo] at hi
  | succ n ih =>
    intro remaining part i h hi
    match remaining with
    | [] => simp [chunkGo] at hi
    | b :: rest =>
      have hdrop : ((b :: rest).drop
          (min (b :: rest).length (MAX_PACKET_SIZE - SUBSEQUENT_HEADER))).length ≤ n := by
        simp only [List.length_drop, List.length_cons] at h ⊢
        simp only [MAX_PACKET_SIZE, SUBSEQUENT_HEADER]
        omega
      match i with
      | 0 =>
        rw [chunkGo]
        have hlen := chunkGo_length n
          ((b :: rest).drop (min (b :: rest).length (MAX_PACKET_SIZE - SUBSEQUENT_HEADER)))
          (part + 1) hdrop
        simp only [List.getD_cons_zero, List.getD_cons_succ, Nat.add_zero,
          List.length_cons] at hlen ⊢
        congr 1
        rw [decide_eq_decide, hlen]
        simp only [List.length_drop, List.length_cons, MAX_PACKET_SIZE, SUBSEQUENT_HEADER]
        omega
      | i + 1 =>
        rw [chunkGo] at hi ⊢
        simp only [List.getD_cons_succ, List.length_cons] at hi ⊢
        simp only [List.length_cons] at hdrop
        rw [ih _ (part + 1) i hdrop (Nat.lt_of_succ_lt_succ hi)]
        congr 1
        · omega
        · rw [decide_eq_decide]
          omega

theorem generateRawImagePackets_cons_length (x y width height : Nat)
    (jpegData : List Nat) :
    (generateRawImagePackets x y width height jpegData).length
      = (chunkRemaining
          (jpegData.drop (min jpegData.length (MAX_PACKET_SIZE - PACKET1_HEADER))) 2).length
        + 1 := by
  unfold generateRawImagePackets
  rw [List.length_cons]

theorem generateRawImagePackets_ctrl (x y width height : Nat)
    (jpegData : List Nat) (i : Nat)
    (hi : i < (generateRawImagePackets x y width height jpegData).length) :
    ((generateRawImagePackets x y width height jpegData).getD i ⟨[], []⟩).bytes.getD 4 0
      = generateWritePacketByte (i + 1) (decide (i = 0))
          (decide (i + 1 = (generateRawImagePackets x y width height jpegData).length)) := by
  have hlen1 := generateRawImagePackets_cons_length x y width height jpegData
  match i with
  | 0 =>
    rw [hlen1, chunkRemaining, chunkGo_length _ _ 2 (Nat.le_refl _)]
    have hstep : (generateRawImagePackets x y width height jpegData).getD 0 ⟨[], []⟩
        = { header := firstPacketHeader x y width height jpegData.length,
            payload := jpegData.take
              (min jpegData.length (MAX_PACKET_SIZE - PACKET1_HEADER)) } := by
      simp only [generateRawImagePackets]
      rw [List.getD_cons_zero]
    rw [hstep, Packet.bytes]
    simp only [firstPacketHeader, List.cons_append, List.getD_cons_succ,
      List.getD_cons_zero]
    congr 1
    rw [decide_eq_decide]
    simp only [List.length_drop, MAX_PACKET_SIZE, PACKET1_HEADER, SUBSEQUENT_HEADER]
    omega
  | i + 1 =>
    rw [hlen1, chunkRemaining] at hi ⊢
    have hstep : (generateRawImagePackets x y width height jpegData).getD (i + 1) ⟨[], []⟩
        = (chunkGo
            (jpegData.drop (min jpegData.length (MAX_PACKET_SIZE - PACKET1_HEADER))).length
            (jpegData.drop (min jpegData.length (MAX_PACKET_SIZE - PACKET1_HEADER))) 2).getD i
            ⟨[], []⟩ := by
      simp only [generateRawImagePackets, chunkRemaining]
      rw [List.getD_cons_succ]
    rw [hstep]
    have hilt : i < (chunkGo
        (jpegData.drop (min jpegData.length (MAX_PACKET_SIZE - PACKET1_HEADER))).length
        (jpegData.drop (min jpegData.length (MAX_PACKET_SIZE - PACKET1_HEADER))) 2).length :=
      Nat.lt_of_succ_lt_succ hi
    have hmem : (chunkGo
        (jpegData.drop (min jpegData.length (MAX_PACKET_SIZE - PACKET1_HEADER))).length
        (jpegData.drop (min jpegData.length (MAX_PACKET_SIZE - PACKET1_HEADER))) 2).getD i
          ⟨[], []⟩ ∈ chunkGo
            (jpegData.drop (min jpegData.length (MAX_PACKET_SIZE - PACKET1_HEADER))).length
            (jpegData.drop (min jpegData.length (MAX_PACKET_SIZE - PACKET1_HEADER))) 2 := by
      rw [List.getD_eq_getElem _ _ hilt]
      exact List.getElem_mem hilt
    have hhead := (chunkGo_sizes _ _ 2 _ hmem).1
    have hctrl := chunkGo_ctrl _ _ 2 i (Nat.le_refl _) hilt
    rw [Packet.bytes]
    rw [List.getD_append _ _ _ _ (by
      simp only [List.length_append, hhead, SUBSEQUENT_HEADER]
      omega)]
    rw [List.getD_append _ _ _ _ (by
      rw [hhead]
      simp only [SUBSEQUENT_HEADER]
      omega)]
    rw [hctrl]
    rw [show i + 1 + 1 = 2 + i by omega]
    congr 1
    rw [decide_eq_decide]
    omega

/-! ## Decoder lemmas -/

theorem setInsert_mem (x c : Nat) : ∀ (l : List Nat),
    c ∈ setInsert x l ↔ c = x ∨ c ∈ l
  | [] => by simp [setInsert]
  | y :: ys => by
    unfold setInsert
    by_cases h1 : x < y
    · rw [if_pos h1]
      simp only [List.mem_cons]
    · by_cases h2 : x = y
      · subst h2
        rw [if_neg h1, if_pos rfl]
        simp only [List.mem_cons]
        tauto
      · rw [if_neg h1, if_neg h2]
        simp only [List.mem_cons, setInsert_mem x c ys]
        tauto

theorem setInsert_sorted (x : Nat) : ∀ (l : List Nat),
    l.Sorted (· < ·) → (setInsert x l).Sorted (· < ·)
  | [] => by
    intro _
    simp [setInsert]
  | y :: ys => by
    intro h
    rw [List.sorted_cons] at h
    unfold setInsert
    by_cases h1 : x < y
    · rw [if_pos h1, List.sorted_cons]
      refine ⟨?_, ?_⟩
      · intro b hb
        rcases List.mem_cons.mp hb with rfl | hbys
        · exact h1
        · exact lt_trans h1 (h.1 b hbys)
      · rw [List.sorted_cons]
        exact h
    · by_cases h2 : x = y
      · subst h2
        rw [if_neg h1, if_pos rfl, List.sorted_cons]
        exact h
      · rw [if_neg h1, if_neg h2, List.sorted_cons]
        refine ⟨?_, setInsert_sorted x ys h.2⟩
        intro b hb
        rcases (setInsert_mem x b ys).mp hb with rfl | hbys
        · omega
        · exact h.1 b hbys

theorem collectPressed_sorted : ∀ (bytes acc : List Nat),
    acc.Sorted (· < ·) → (collectPressed bytes acc).Sorted (· < ·)
  | [], acc => by
    intro h
    exact h
  | b :: rest, acc => by
    intro h
    unfold collectPressed
    by_cases hb0 : b = 0
    · rw [if_pos hb0]
      exact h
    · rw [if_neg hb0]
      by_cases hb9 : 1 ≤ b ∧ b ≤ 9
      · rw [if_pos hb9]
        exact collectPressed_sorted rest _ (setInsert_sorted _ _ h)
      · rw [if_neg hb9]
        exact collectPressed_sorted rest acc h

theorem collectPressed_nodup (bytes : List Nat) :
    (collectPressed bytes []).Nodup :=
  (collectPressed_sorted bytes [] (by simp)).nodup

theorem processReport_grid (st : DecoderState) (report : List Nat)
    (hp : isPButtonEvent report = false) (hg : isGridReport report = true) :
    processReport st report
      = (((collectPressed (report.drop 6) []).filter
            (fun c => !(st.pressed_buttons.contains c))).map
            (fun c => { type := EventType.press, button_code := c, pressed := true })
          ++ (st.pressed_buttons.filter
            (fun c => !((collectPressed (report.drop 6) []).contains c))).map
            (fun c => { type := EventType.release, button_code := c, pressed := false }),
         { st with pressed_buttons := collectPressed (report.drop 6) [] }) := by
  unfold processReport
  rw [hp, hg]
  simp

theorem filter_pressed_of_press (l : List Nat) :
    ((l.map (fun c =>
        ({ type := EventType.press, button_code := c, pressed := true } : ButtonEvent))).filter
      (fun e => e.pressed))
    = l.map (fun c => { type := EventType.press, button_code := c, pressed := true }) := by
  induction l with
  | nil => rfl
  | cons a t ih => simp [ih]

theorem filter_pressed_of_release (l : List Nat) :
    ((l.map (fun c =>
        ({ type := EventType.release, button_code := c, pressed := false } : ButtonEvent))).filter
      (fun e => e.pressed)) = [] := by
  induction l with
  | nil => rfl
  | cons a t ih => simp [ih]

theorem filter_unpressed_of_press (l : List Nat) :
    ((l.map (fun c =>
        ({ type := EventType.press, button_code := c, pressed := true } : ButtonEvent))).filter
      (fun e => !e.pressed)) = [] := by
  induction l with
  | nil => rfl
  | cons a t ih => simp [ih]

theorem filter_unpressed_of_release (l : List Nat) :
    ((l.map (fun c =>
        ({ type := EventType.release, button_code := c, pressed := false } : ButtonEvent))).filter
      (fun e => !e.pressed))
    = l.map (fun c => { type := EventType.release, button_code := c, pressed := false }) := by
  induction l with
  | nil => rfl
  | cons a t ih => simp [ih]

theorem map_code_of_map (t : EventType) (pr : Bool) (l : List Nat) :
    ((l.map (fun c =>
        ({ type := t, button_code := c, pressed := pr } : ButtonEvent))).map
      (fun e => e.button_code)) = l := by
  induction l with
  | nil => rfl
  | cons a s ih => simp [ih]

theorem processReport_nav_press (st : DecoderState) (report : List Nat)
    (hp : isPButtonEvent report = true) (h4 : report.getD 4 0 = 0x01)
    (h5 : report.getD 5 0 = 0xa1 ∨ report.getD 5 0 = 0xa2) :
    processReport st report
      = ([{ type := EventType.press, button_code := report.getD 5 0, pressed := true }],
         { st with last_p_button := report.getD 5 0 }) := by
  simp only [List.getD_eq_getElem?_getD] at h4 h5 ⊢
  rcases h5 with h5 | h5 <;> simp [processReport, hp, h4, h5]

theorem processReport_nav_release (st : DecoderState) (report : List Nat)
    (hp : isPButtonEvent report = true) (h4 : report.getD 4 0 = 0)
    (hl : st.last_p_button ≠ 0) :
    processReport st report
      = ([{ type := EventType.release, button_code := st.last_p_button, pressed := false }],
         { st with last_p_button := 0 }) := by
  simp only [List.getD_eq_getElem?_getD] at h4 ⊢
  simp [processReport, hp, h4, hl]

theorem processReport_nav_noop (st : DecoderState) (report : List Nat)
    (hp : isPButtonEvent report = true) (h4 : report.getD 4 0 = 0)
    (hl : st.last_p_button = 0) :
    processReport st report = ([], st) := by
  simp only [List.getD_eq_getElem?_getD] at h4 ⊢
  simp [processReport, hp, h4, hl]

theorem processReport_nav_pressed_unchanged (st : DecoderState) (report : List Nat)
    (hp : isPButtonEvent report = true) :
    (processReport st report).2.pressed_buttons = st.pressed_buttons := by
  unfold processReport
  rw [hp]
  split
  · split
    · rfl
    · split
      · rfl
      · rfl
  · simp at *

/-! ## Claims -/

/-- C2: for every target rectangle and every compressed buffer of N bytes,
the packetizer produces exactly
1 + ceil(max(0, N - (4095 - 20)) / (4095 - 5)) packets (in Nat arithmetic:
1 + (N - 4075 + 4089) / 4090), the payloads of the packets concatenate to
exactly the N input bytes, and the total transmitted size is
packetCount * 4095; likewise for the per-key variant. -/
theorem c2_packetizer_count_payload_total (x y width height keyIndex : Nat)
    (jpegData : List Nat) :
    (generateRawImagePackets x y width height jpegData).length
        = 1 + (jpegData.length - (MAX_PACKET_SIZE - PACKET1_HEADER)
               + (MAX_PACKET_SIZE - SUBSEQUENT_HEADER - 1))
              / (MAX_PACKET_SIZE - SUBSEQUENT_HEADER)
    ∧ ((generateRawImagePackets x y width height jpegData).map Packet.payload).flatten
        = jpegData
    ∧ ((generateRawImagePackets x y width height jpegData).map
          (fun p => p.bytes.length)).sum
        = (generateRawImagePackets x y width height jpegData).length * MAX_PACKET_SIZE
    ∧ (generateImagePackets keyIndex jpegData).length
        = 1 + (jpegData.length - (MAX_PACKET_SIZE - PACKET1_HEADER)
               + (MAX_PACKET_SIZE - SUBSEQUENT_HEADER - 1))
              / (MAX_PACKET_SIZE - SUBSEQUENT_HEADER)
    ∧ ((generateImagePackets keyIndex jpegData).map Packet.payload).flatten = jpegData
    ∧ ((generateImagePackets keyIndex jpegData).map (fun p => p.bytes.length)).sum
        = (generateImagePackets keyIndex jpegData).length * MAX_PACKET_SIZE := by
  refine ⟨generateRawImagePackets_length x y width height jpegData,
    generateRawImagePackets_payload_flatten x y width height jpegData, ?_, ?_, ?_, ?_⟩
  · exact sum_map_const _ _ _ (fun p hp =>
      Packet.bytes_length p (generateRawImagePackets_sizes x y width height jpegData p hp))
  · simp only [generateImagePackets]
    exact generateRawImagePackets_length _ _ _ _ jpegData
  · simp only [generateImagePackets]
    exact generateRawImagePackets_payload_flatten _ _ _ _ jpegData
  · simp only [generateImagePackets]
    exact sum_map_const _ _ _ (fun p hp =>
      Packet.bytes_length p (generateRawImagePackets_sizes _ _ _ _ jpegData p hp))

/-- C3: the i-th packet (part index i + 1, one-based) of every produced
sequence carries at byte offset 4 the sequence-control byte
uint8((i + 1) | 0x20) with bit 0x80 additionally set exactly on the first
packet and bit 0x40 additionally set exactly on the last packet; in a
single-packet sequence the byte has both 0x80 and 0x40 set simultaneously. -/
theorem c3_sequence_control_bytes (x y width height keyIndex : Nat)
    (jpegData : List Nat) (i : Nat) :
    (i < (generateRawImagePackets x y width height jpegData).length →
      ((generateRawImagePackets x y width height jpegData).getD i ⟨[], []⟩).bytes.getD 4 0
        = generateWritePacketByte (i + 1) (decide (i = 0))
            (decide (i + 1 = (generateRawImagePackets x y width height jpegData).length)))
    ∧ (i < (generateImagePackets keyIndex jpegData).length →
      ((generateImagePackets keyIndex jpegData).getD i ⟨[], []⟩).bytes.getD 4 0
        = generateWritePacketByte (i + 1) (decide (i = 0))
            (decide (i + 1 = (generateImagePackets keyIndex jpegData).length)))
    ∧ ((generateRawImagePackets x y width height jpegData).length = 1 →
      ((generateRawImagePackets x y width height jpegData).getD 0 ⟨[], []⟩).bytes.getD 4 0
          &&& 0x80 = 0x80
      ∧ ((generateRawImagePackets x y width height jpegData).getD 0 ⟨[], []⟩).bytes.getD 4 0
          &&& 0x40 = 0x40) := by
  refine ⟨fun hi => generateRawImagePackets_ctrl x y width height jpegData i hi, ?_, ?_⟩
  · intro hi
    simp only [generateImagePackets] at hi ⊢
    exact generateRawImagePackets_ctrl _ _ _ _ jpegData i hi
  · intro h1
    have hctrl := generateRawImagePackets_ctrl x y width height jpegData 0 (by omega)
    rw [hctrl, h1]
    constructor <;> decide

/-- C3 witness: on the empty input the packetizer emits a single packet
and its sequence-control byte carries both the first and the last bit. -/
theorem c3_sequence_control_bytes_witness :
    ((generateRawImagePackets 0 0 118 118 []).getD 0 ⟨[], []⟩).bytes.getD 4 0
      = generateWritePacketByte 1 (decide ((0 : Nat) = 0))
          (decide (0 + 1 = (generateRawImagePackets 0 0 118 118 []).length))
    ∧ ((generateRawImagePackets 0 0 118 118 []).getD 0 ⟨[], []⟩).bytes.getD 4 0
        &&& 0x80 = 0x80 := by
  have h := c3_sequence_control_bytes 0 0 118 118 0 [] 0
  exact ⟨h.1 (by decide), (h.2.2 (by decide)).1⟩

/-- C8: every packet of every produced sequence occupies exactly
MAX_PACKET_SIZE bytes on the wire with every byte beyond
header-plus-payload equal to zero, and the 16-bit big-endian length field
at offsets 18..19 of the first packet records the true payload size
(modulo 2^16; exactly the size whenever it fits in 16 bits), not the
padded size. -/
theorem c8_zero_padding_and_length_field (x y width height : Nat)
    (jpegData : List Nat) :
    (∀ p ∈ generateRawImagePackets x y width height jpegData,
        p.bytes.length = MAX_PACKET_SIZE
        ∧ ∀ j, p.header.length + p.payload.length ≤ j → p.bytes.getD j 0 = 0)
    ∧ ((generateRawImagePackets x y width height jpegData).headD ⟨[], []⟩).bytes.getD 18 0
        = jpegData.length / 256 % 256
    ∧ ((generateRawImagePackets x y width height jpegData).headD ⟨[], []⟩).bytes.getD 19 0
        = jpegData.length % 256
    ∧ (jpegData.length < 65536 →
        256 * (((generateRawImagePackets x y width height jpegData).headD
                  ⟨[], []⟩).bytes.getD 18 0)
          + ((generateRawImagePackets x y width height jpegData).headD
                ⟨[], []⟩).bytes.getD 19 0
        = jpegData.length) := by
  have hhead : (generateRawImagePackets x y width height jpegData).headD ⟨[], []⟩
      = { header := firstPacketHeader x y width height jpegData.length,
          payload := jpegData.take
            (min jpegData.length (MAX_PACKET_SIZE - PACKET1_HEADER)) } := by
    simp only [generateRawImagePackets]
    rw [List.headD_cons]
  have h18 : ((generateRawImagePackets x y width height jpegData).headD
      ⟨[], []⟩).bytes.getD 18 0 = jpegData.length / 256 % 256 := by
    rw [hhead, Packet.bytes]
    simp only [firstPacketHeader, List.cons_append, List.getD_cons_succ,
      List.getD_cons_zero]
  have h19 : ((generateRawImagePackets x y width height jpegData).headD
      ⟨[], []⟩).bytes.getD 19 0 = jpegData.length % 256 := by
    rw [hhead, Packet.bytes]
    simp only [firstPacketHeader, List.cons_append, List.getD_cons_succ,
      List.getD_cons_zero]
  refine ⟨?_, h18, h19, ?_⟩
  · intro p hp
    exact ⟨Packet.bytes_length p (generateRawImagePackets_sizes x y width height jpegData p hp),
      fun j hj => Packet.bytes_padding p j hj⟩
  · intro hfit
    rw [h18, h19]
    omega

/-- C8 witness: on the one-byte input [5] the first packet is a full
4095-byte buffer, its length field encodes 1, and byte 25 (beyond the
21 header-plus-payload bytes) is zero. -/
theorem c8_zero_padding_and_length_field_witness :
    ((generateRawImagePackets 0 0 1 1 [5]).headD ⟨[], []⟩).bytes.length = MAX_PACKET_SIZE
    ∧ 256 * (((generateRawImagePackets 0 0 1 1 [5]).headD ⟨[], []⟩).bytes.getD 18 0)
        + ((generateRawImagePackets 0 0 1 1 [5]).headD ⟨[], []⟩).bytes.getD 19 0 = 1
    ∧ ((generateRawImagePackets 0 0 1 1 [5]).headD ⟨[], []⟩).bytes.getD 25 0 = 0 := by
  have h := c8_zero_padding_and_length_field 0 0 1 1 [5]
  have hmem : (generateRawImagePackets 0 0 1 1 [5]).headD ⟨[], []⟩
      ∈ generateRawImagePackets 0 0 1 1 [5] := by decide
  refine ⟨(h.1 _ hmem).1, h.2.2.2 (by decide), (h.1 _ hmem).2 25 (by decide)⟩

/-- C4: on a grid-shaped (non-navigation) report decoding to current set C
with stored set P: the press events are exactly one per index of C minus P
(membership plus no duplicates), the release events exactly one per index
of P minus C, all press events precede all release events, the stored set
is replaced by C while the navigation memory is untouched, and an
immediately repeated identical report emits no events and leaves the
state unchanged. -/
theorem c4_grid_edge_triggered_events (st : DecoderState) (report : List Nat)
    (hp : isPButtonEvent report = false) (hg : isGridReport report = true)
    (hnd : st.pressed_buttons.Nodup) :
    (∀ c, c ∈ pressCodes (processReport st report).1
        ↔ (c ∈ collectPressed (report.drop 6) [] ∧ c ∉ st.pressed_buttons))
    ∧ (pressCodes (processReport st report).1).Nodup
    ∧ (∀ c, c ∈ releaseCodes (processReport st report).1
        ↔ (c ∈ st.pressed_buttons ∧ c ∉ collectPressed (report.drop 6) []))
    ∧ (releaseCodes (processReport st report).1).Nodup
    ∧ (processReport st report).1
        = (processReport st report).1.filter (fun e => e.pressed)
          ++ (processReport st report).1.filter (fun e => !e.pressed)
    ∧ (processReport st report).2.pressed_buttons = collectPressed (report.drop 6) []
    ∧ (processReport st report).2.last_p_button = st.last_p_button
    ∧ processReport (processReport st report).2 report
        = ([], (processReport st report).2) := by
  rw [processReport_grid st report hp hg]
  dsimp only
  have hC := collectPressed_nodup (report.drop 6)
  have hCempty : (collectPressed (report.drop 6) []).filter
      (fun c => !((collectPressed (report.drop 6) []).contains c)) = [] := by
    simp [List.filter_eq_nil_iff]
  refine ⟨?_, ?_, ?_, ?_, ?_, rfl, rfl, ?_⟩
  · intro c
    rw [pressCodes, List.filter_append, filter_pressed_of_press,
      filter_pressed_of_release, List.append_nil, map_code_of_map]
    simp [List.mem_filter]
  · rw [pressCodes, List.filter_append, filter_pressed_of_press,
      filter_pressed_of_release, List.append_nil, map_code_of_map]
    exact hC.filter _
  · intro c
    rw [releaseCodes, List.filter_append, filter_unpressed_of_press,
      filter_unpressed_of_release, List.nil_append, map_code_of_map]
    simp [List.mem_filter]
  · rw [releaseCodes, List.filter_append, filter_unpressed_of_press,
      filter_unpressed_of_release, List.nil_append, map_code_of_map]
    exact hnd.filter _
  · rw [List.filter_append, List.filter_append, filter_pressed_of_press,
      filter_pressed_of_release, filter_unpressed_of_press,
      filter_unpressed_of_release, List.append_nil, List.nil_append]
  · rw [processReport_grid _ report hp hg]
    dsimp only
    rw [hCempty]
    simp

/-- C4 witness: stored set {0, 1}, grid report carrying raw codes 3, 2, 1
(indices 2, 1, 0): exactly one press for 2 and no releases, presses
precede releases, and the repeated report is a no-op. -/
theorem c4_grid_edge_triggered_events_witness :
    (2 ∈ pressCodes (processReport ⟨[0, 1], 0⟩
        [0x13, 0xff, 0x02, 0x00, 0x00, 0x01, 3, 2, 1, 0]).1
      ↔ (2 ∈ collectPressed ([0x13, 0xff, 0x02, 0x00, 0x00, 0x01, 3, 2, 1, 0].drop 6) []
          ∧ 2 ∉ ([0, 1] : List Nat)))
    ∧ processReport (processReport ⟨[0, 1], 0⟩
          [0x13, 0xff, 0x02, 0x00, 0x00, 0x01, 3, 2, 1, 0]).2
        [0x13, 0xff, 0x02, 0x00, 0x00, 0x01, 3, 2, 1, 0]
      = ([], (processReport ⟨[0, 1], 0⟩
          [0x13, 0xff, 0x02, 0x00, 0x00, 0x01, 3, 2, 1, 0]).2) := by
  have h := c4_grid_edge_triggered_events ⟨[0, 1], 0⟩
    [0x13, 0xff, 0x02, 0x00, 0x00, 0x01, 3, 2, 1, 0]
    (by decide) (by decide) (by decide)
  exact ⟨h.1 2, h.2.2.2.2.2.2.2⟩

/-- C5: a navigation-shaped report with press action and code 0xA1 or 0xA2
emits exactly one press event for that code and records it; a release
action report emits one release event carrying the remembered code and
clears it, and emits nothing when no code is remembered; a
navigation-shaped report never touches the grid pressed set; and a press
report with code 0xA1 followed by a release report emits press(0xA1) then
release(0xA1). -/
theorem c5_navigation_press_release (st : DecoderState) (report r1 r2 : List Nat)
    (hp : isPButtonEvent report = true)
    (hp1 : isPButtonEvent r1 = true) (hp2 : isPButtonEvent r2 = true)
    (h14 : r1.getD 4 0 = 0x01) (h15 : r1.getD 5 0 = 0xa1)
    (h24 : r2.getD 4 0 = 0) :
    ((report.getD 4 0 = 0x01 ∧ (report.getD 5 0 = 0xa1 ∨ report.getD 5 0 = 0xa2)) →
        processReport st report
          = ([{ type := EventType.press, button_code := report.getD 5 0, pressed := true }],
             { st with last_p_button := report.getD 5 0 }))
    ∧ (report.getD 4 0 = 0 → st.last_p_button ≠ 0 →
        processReport st report
          = ([{ type := EventType.release, button_code := st.last_p_button, pressed := false }],
             { st with last_p_button := 0 }))
    ∧ (report.getD 4 0 = 0 → st.last_p_button = 0 →
        processReport st report = ([], st))
    ∧ (processReport st report).2.pressed_buttons = st.pressed_buttons
    ∧ (processReport st r1).1
        = [{ type := EventType.press, button_code := 0xa1, pressed := true }]
    ∧ (processReport (processReport st r1).2 r2).1
        = [{ type := EventType.release, button_code := 0xa1, pressed := false }] := by
  have hpress := processReport_nav_press st r1 hp1 h14 (Or.inl h15)
  refine ⟨fun hc => processReport_nav_press st report hp hc.1 hc.2,
    fun h4 hl => processReport_nav_release st report hp h4 hl,
    fun h4 hl => processReport_nav_noop st report hp h4 hl,
    processReport_nav_pressed_unchanged st report hp, ?_, ?_⟩
  · rw [hpress, h15]
  · rw [hpress]
    dsimp only
    rw [processReport_nav_release _ r2 hp2 h24 (by
      have h15x := h15
      simp only [List.getD_eq_getElem?_getD] at h15x
      simp [h15x])]
    rw [h15]

/-- C5 witness: the concrete press report 11 ff 0b 00 01 a1 followed by the
release report 11 ff 0b 00 00 00 emits press(0xA1) then release(0xA1). -/
theorem c5_navigation_press_release_witness :
    (processReport ⟨[], 0⟩ [0x11, 0xff, 0x0b, 0x00, 0x01, 0xa1]).1
        = [{ type := EventType.press, button_code := 0xa1, pressed := true }]
    ∧ (processReport (processReport ⟨[], 0⟩ [0x11, 0xff, 0x0b, 0x00, 0x01, 0xa1]).2
          [0x11, 0xff, 0x0b, 0x00, 0x00, 0x00]).1
        = [{ type := EventType.release, button_code := 0xa1, pressed := false }] := by
  have h := c5_navigation_press_release ⟨[], 0⟩
    [0x11, 0xff, 0x0b, 0x00, 0x01, 0xa1]
    [0x11, 0xff, 0x0b, 0x00, 0x01, 0xa1]
    [0x11, 0xff, 0x0b, 0x00, 0x00, 0x00]
    (by decide) (by decide) (by decide) (by decide) (by decide) (by decide)
  exact ⟨h.2.2.2.2.1, h.2.2.2.2.2⟩

/-- C6: the writer makes one non-blocking vectored write of the whole
sequence; the blocking retry is consulted only when the first attempt
errs with EAGAIN/EWOULDBLOCK; the update succeeds iff the consulted
attempt wrote exactly packetCount * MAX_PACKET_SIZE bytes; any other
outcome is failure with no further retry; and a successful
setKeyImage/setRawImage passed its guards and transmitted its generated
packets under exactly these rules. -/
theorem c6_channel_writer_retry_semantics (packets : List Packet)
    (n e : Nat) (second : WriteResult) (keyIndex : Int) (initialized : Bool)
    (x y width height : Nat) (jpegData : List Nat)
    (first blocking : WriteResult) :
    (∀ other : WriteResult,
        transmitPackets packets (WriteResult.ok n) second
          = transmitPackets packets (WriteResult.ok n) other)
    ∧ (transmitPackets packets (WriteResult.ok n) second = true
        ↔ n = packets.length * MAX_PACKET_SIZE)
    ∧ ((e = EAGAIN ∨ e = EWOULDBLOCK) →
        (transmitPackets packets (WriteResult.err e) second = true
          ↔ second = WriteResult.ok (packets.length * MAX_PACKET_SIZE)))
    ∧ (¬(e = EAGAIN ∨ e = EWOULDBLOCK) →
        transmitPackets packets (WriteResult.err e) second = false)
    ∧ (setKeyImage keyIndex initialized jpegData first blocking = true →
        ∃ ps, setKeyImagePackets keyIndex initialized jpegData = some ps
          ∧ transmitPackets ps first blocking = true)
    ∧ (setRawImage x y width height initialized jpegData first blocking = true →
        ∃ ps, setRawImagePackets x y width height initialized jpegData = some ps
          ∧ transmitPackets ps first blocking = true) := by
  refine ⟨fun other => rfl, by simp [transmitPackets], ?_, ?_, ?_, ?_⟩
  · intro he
    cases second <;> simp [transmitPackets, he]
  · intro he
    simp [transmitPackets, he]
  · intro hs
    unfold setKeyImage at hs
    cases heq : setKeyImagePackets keyIndex initialized jpegData with
    | none =>
      rw [heq] at hs
      exact absurd hs (by simp)
    | some ps =>
      rw [heq] at hs
      exact ⟨ps, rfl, hs⟩
  · intro hs
    unfold setRawImage at hs
    cases heq : setRawImagePackets x y width height initialized jpegData with
    | none =>
      rw [heq] at hs
      exact absurd hs (by simp)
    | some ps =>
      rw [heq] at hs
      exact ⟨ps, rfl, hs⟩

/-- C6 witness: on a single-packet update, a would-block first attempt
followed by a blocking write of 4095 bytes succeeds, while a first
attempt failing with errno 5 fails without consulting the retry. -/
theorem c6_channel_writer_retry_semantics_witness :
    transmitPackets (generateImagePackets 0 []) (WriteResult.err 11)
        (WriteResult.ok 4095) = true
    ∧ transmitPackets (generateImagePackets 0 []) (WriteResult.err 5)
        (WriteResult.ok 4095) = false := by
  constructor
  · exact ((c6_channel_writer_retry_semantics (generateImagePackets 0 []) 0 11
      (WriteResult.ok 4095) 0 true 0 0 0 0 [] (WriteResult.ok 0)
      (WriteResult.ok 0)).2.2.1 (Or.inl rfl)).mpr (by decide)
  · exact (c6_channel_writer_retry_semantics (generateImagePackets 0 []) 0 5
      (WriteResult.ok 4095) 0 true 0 0 0 0 [] (WriteResult.ok 0)
      (WriteResult.ok 0)).2.2.2.1 (by decide)

/-- C7 counterexample: setKeyImage with a valid key index on an
initialized session and an EMPTY payload is not rejected before I/O: the
packetizer yields a nonempty (single-packet) sequence, the dead
packets.empty() guard does not fire, and the sequence is handed to the
channel writer. -/
theorem c7_empty_payload_not_rejected :
    (setKeyImagePackets 0 true []).isSome = true := by decide

theorem generateImagePackets_isEmpty (keyIndex : Nat) (jpegData : List Nat) :
    (generateImagePackets keyIndex jpegData).isEmpty = false := by
  simp [generateImagePackets, generateRawImagePackets]

theorem generateRawImagePackets_isEmpty (x y width height : Nat)
    (jpegData : List Nat) :
    (generateRawImagePackets x y width height jpegData).isEmpty = false := by
  simp [generateRawImagePackets]

/-- C7 amended: every image-write operation rejects an invalid key index
(where one applies) and an uninitialized session synchronously, before
any channel I/O and before any other side effect; an empty payload,
however, is NOT rejected by setKeyImage/setRawImage/setScreenImage: it is
packetized into a nonempty sequence that reaches the channel writer. -/
theorem c7_guard_rejection_amended (keyIndex : Int) (initialized : Bool)
    (x y width height : Nat) (jpegData : List Nat) (s : AnimState)
    (decoded : Option GifAnimation) :
    (setKeyImagePackets keyIndex initialized jpegData = none
        ↔ (keyIndex < 0 ∨ 8 < keyIndex ∨ initialized = false))
    ∧ (setRawImagePackets x y width height initialized jpegData = none
        ↔ initialized = false)
    ∧ (setScreenImagePackets initialized jpegData
        = setRawImagePackets 23 6 SCREEN_WIDTH SCREEN_HEIGHT initialized jpegData)
    ∧ ((keyIndex < 0 ∨ 8 < keyIndex ∨ initialized = false) →
        setKeyGifM s keyIndex initialized decoded = (false, s, []))
    ∧ (initialized = false → setScreenGifM s initialized decoded = (false, s, []))
    ∧ (0 ≤ keyIndex → keyIndex ≤ 8 → initialized = true →
        (setKeyImagePackets keyIndex initialized jpegData).isSome = true) := by
  refine ⟨?_, ?_, rfl, ?_, ?_, ?_⟩
  · by_cases hg : keyIndex < 0 ∨ 8 < keyIndex ∨ initialized = false
    · simp [setKeyImagePackets, hg]
    · simp [setKeyImagePackets, hg, generateImagePackets_isEmpty]
  · by_cases hg : initialized = false
    · simp [setRawImagePackets, hg]
    · simp [setRawImagePackets, hg, generateRawImagePackets_isEmpty]
  · intro hg
    unfold setKeyGifM
    rw [if_pos hg]
  · intro hg
    unfold setScreenGifM
    rw [if_pos hg]
  · intro h0 h8 hinit
    have hng : ¬(keyIndex < 0 ∨ 8 < keyIndex ∨ initialized = false) := by
      rw [hinit]
      simp only [Bool.true_eq_false, or_false]
      omega
    simp [setKeyImagePackets, hng, generateImagePackets_isEmpty]

/-- C7 amended witness: key index -1 and key index 9 are rejected with no
packets generated, an uninitialized session likewise, a rejected
setKeyGif changes nothing, and a valid empty-payload call still produces
a transmitted sequence. -/
theorem c7_guard_rejection_amended_witness :
    setKeyImagePackets (-1) true [7] = none
    ∧ setKeyImagePackets 9 true [7] = none
    ∧ setKeyImagePackets 3 false [7] = none
    ∧ setKeyGifM ⟨[], none, 0⟩ 9 true none = (false, ⟨[], none, 0⟩, [])
    ∧ (setKeyImagePackets 3 true []).isSome = true := by
  refine ⟨?_, ?_, ?_, ?_, ?_⟩
  · exact (c7_guard_rejection_amended (-1) true 0 0 0 0 [7] ⟨[], none, 0⟩ none).1.mpr
      (Or.inl (by decide))
  · exact (c7_guard_rejection_amended 9 true 0 0 0 0 [7] ⟨[], none, 0⟩ none).1.mpr
      (Or.inr (Or.inl (by decide)))
  · exact (c7_guard_rejection_amended 3 false 0 0 0 0 [7] ⟨[], none, 0⟩ none).1.mpr
      (Or.inr (Or.inr rfl))
  · exact (c7_guard_rejection_amended 9 true 0 0 0 0 [7] ⟨[], none, 0⟩ none).2.2.2.1
      (Or.inr (Or.inl (by decide)))
  · exact (c7_guard_rejection_amended 3 true 0 0 0 0 [] ⟨[], none, 0⟩ none).2.2.2.2.2
      (by decide) (by decide) rfl

theorem filter_keys_nodup (l : List (Nat × Nat)) (k : Nat)
    (h : (l.map Prod.fst).Nodup) :
    ((l.filter (fun p => !(p.1 == k))).map Prod.fst).Nodup :=
  List.Nodup.sublist (List.Sublist.map Prod.fst (List.filter_sublist l)) h

theorem notmem_filter_keys (l : List (Nat × Nat)) (k : Nat) :
    k ∉ (l.filter (fun p => !(p.1 == k))).map Prod.fst := by
  intro hmem
  obtain ⟨p, hp, hfst⟩ := List.mem_map.mp hmem
  have hkeep := List.of_mem_filter hp
  rw [hfst] at hkeep
  simp at hkeep

theorem lookup_filter_self : ∀ (l : List (Nat × Nat)) (k : Nat),
    ((l.filter (fun p => !(p.1 == k))).lookup k) = none
  | [], _ => rfl
  | p :: t, k => by
    by_cases h : p.1 = k
    · simp only [List.filter_cons, h, beq_self_eq_true, Bool.not_true, if_false,
        Bool.false_eq_true, ite_false]
      exact lookup_filter_self t k
    · have hkp : (k == p.1) = false := by simp [Ne.symm h]
      simp only [List.filter_cons]
      rw [if_pos (by simp [h])]
      simp only [List.lookup, hkp]
      exact lookup_filter_self t k

/-- C9: starting an animation on a target that already holds a task first
sets the old task run flag false and joins its worker, in that order,
before the new worker is started and stored; the per-key task map keeps at
most one task per key (keys stay duplicate-free, and the key maps to
exactly the new task on success and to no task on failure); the screen
slot likewise holds the single replacement task. -/
theorem c9_single_task_per_target (s : AnimState) (keyIndex : Int)
    (initialized : Bool) (decoded : Option GifAnimation) (old olds : Nat)
    (hold : s.animations.lookup keyIndex.toNat = some old)
    (hvalid : ¬(keyIndex < 0 ∨ 8 < keyIndex ∨ initialized = false))
    (holds : s.screen_animation = some olds)
    (hkeys : (s.animations.map Prod.fst).Nodup) :
    ((setKeyGifM s keyIndex initialized decoded).2.2
        = [AnimAction.setRunningFalse old, AnimAction.joinThread old]
          ++ (if (setKeyGifM s keyIndex initialized decoded).1
              then [AnimAction.startThread s.nextTaskId,
                    AnimAction.store (AnimTarget.key keyIndex.toNat) s.nextTaskId]
              else []))
    ∧ ((setKeyGifM s keyIndex initialized decoded).2.1.animations.map Prod.fst).Nodup
    ∧ ((setKeyGifM s keyIndex initialized decoded).1 = true →
        (setKeyGifM s keyIndex initialized decoded).2.1.animations.lookup keyIndex.toNat
          = some s.nextTaskId)
    ∧ ((setKeyGifM s keyIndex initialized decoded).1 = false →
        (setKeyGifM s keyIndex initialized decoded).2.1.animations.lookup keyIndex.toNat
          = none)
    ∧ ((setScreenGifM s initialized decoded).2.2
        = [AnimAction.setRunningFalse olds, AnimAction.joinThread olds]
          ++ (if (setScreenGifM s initialized decoded).1
              then [AnimAction.startThread s.nextTaskId,
                    AnimAction.store AnimTarget.screen s.nextTaskId]
              else []))
    ∧ ((setScreenGifM s initialized decoded).1 = true →
        (setScreenGifM s initialized decoded).2.1.screen_animation = some s.nextTaskId) := by
  have hinit : ¬(initialized = false) := fun hcon => hvalid (Or.inr (Or.inr hcon))
  unfold setKeyGifM setScreenGifM stopKeyAnimationM stopScreenAnimationM
  rw [if_neg hvalid, if_neg hinit, hold, holds]
  cases decoded with
  | none =>
    refine ⟨by trivial, filter_keys_nodup _ _ hkeys, by simp,
      fun _ => lookup_filter_self _ _, by trivial, by simp⟩
  | some animation =>
    by_cases hf : animation.frames.isEmpty
    · simp only [hf, ite_true]
      refine ⟨by trivial, filter_keys_nodup _ _ hkeys, by simp,
        fun _ => lookup_filter_self _ _, by trivial, by simp⟩
    · simp only [hf, Bool.false_eq_true, ite_false]
      refine ⟨by trivial, ?_, ?_, by simp, by trivial, by simp⟩
      · simp only [List.map_cons, List.nodup_cons]
        exact ⟨notmem_filter_keys _ _, filter_keys_nodup _ _ hkeys⟩
      · intro _
        simp [List.lookup]

/-- C9 witness: replacing the task on key 0 (task id 7) stops and joins
task 7 before starting and storing task 8, and key 0 then maps to task 8
alone; the screen task is likewise replaced. -/
theorem c9_single_task_per_target_witness :
    (setKeyGifM ⟨[(0, 7)], some 5, 8⟩ 0 true
        (some ⟨[⟨[1], 10⟩], true⟩)).2.2
      = [AnimAction.setRunningFalse 7, AnimAction.joinThread 7,
         AnimAction.startThread 8, AnimAction.store (AnimTarget.key 0) 8]
    ∧ (setKeyGifM ⟨[(0, 7)], some 5, 8⟩ 0 true
        (some ⟨[⟨[1], 10⟩], true⟩)).2.1.animations.lookup 0 = some 8 := by
  have h := c9_single_task_per_target ⟨[(0, 7)], some 5, 8⟩ 0 true
    (some ⟨[⟨[1], 10⟩], true⟩) 7 5 (by decide) (by decide) rfl (by decide)
  refine ⟨?_, h.2.2.1 (by decide)⟩
  have h1 := h.1
  rw [if_pos (by decide)] at h1
  exact h1

/-- C10: startMonitoring is a no-op (no thread spawned, state unchanged)
when monitoring is already active or when no event callback is
registered; a monitor thread is spawned exactly when monitoring was off
and a callback is installed, so monitoring can only ever start after
setEventCallback ran. -/
theorem c10_startMonitoring_guard (s : MonitorState) :
    ((s.monitoring = true ∨ s.has_event_callback = false) →
        startMonitoringM s = (s, false))
    ∧ ((startMonitoringM s).2 = true
        ↔ (s.monitoring = false ∧ s.has_event_callback = true))
    ∧ ((startMonitoringM s).2 = false → (startMonitoringM s).1 = s)
    ∧ ((startMonitoringM s).2 = true →
        (startMonitoringM s).1 = { s with monitoring := true }
        ∧ s.has_event_callback = true)
    ∧ (startMonitoringM (setEventCallbackM s)).2 = !s.monitoring := by
  rcases s with ⟨m, c⟩
  cases m <;> cases c <;> decide

/-- C10 witness: with monitoring already active, startMonitoring changes
nothing and spawns nothing. -/
theorem c10_startMonitoring_guard_witness :
    startMonitoringM ⟨true, true⟩ = (⟨true, true⟩, false) :=
  (c10_startMonitoring_guard ⟨true, true⟩).1 (Or.inl rfl)

/-- C1 (refuted by the code): the transmit path holds no mutex and uses no
queue, so for any two image updates of at least two packets each there is
a thread schedule under which their per-packet channel submissions
interleave: thread 0 does not transmit contiguously. -/
theorem c1_unsynchronized_writers_can_interleave (x y width height : Nat)
    (dataA dataB : List Nat) (hA : 4075 < dataA.length) (hB : 4075 < dataB.length) :
    ∃ sched, writesContiguous 0
      (channelLog (generateRawImagePackets x y width height dataA)
        (generateRawImagePackets x y width height dataB) sched) = false := by
  refine ⟨[true, false], ?_⟩
  have h2 : 2 ≤ (generateRawImagePackets x y width height dataA).length := by
    rw [generateRawImagePackets_length]
    simp only [MAX_PACKET_SIZE, PACKET1_HEADER, SUBSEQUENT_HEADER]
    omega
  have h1 : 1 ≤ (generateRawImagePackets x y width height dataB).length := by
    rw [generateRawImagePackets_length]
    simp only [MAX_PACKET_SIZE, PACKET1_HEADER, SUBSEQUENT_HEADER]
    omega
  rcases hAeq : generateRawImagePackets x y width height dataA with _ | ⟨p0, ptail⟩
  · rw [hAeq] at h2
    simp at h2
  rcases ptail with _ | ⟨p1, prest⟩
  · rw [hAeq] at h2
    simp at h2
  rcases hBeq : generateRawImagePackets x y width height dataB with _ | ⟨q0, qrest⟩
  · rw [hBeq] at h1
    simp at h1
  simp [channelLog, mergeSchedule, writesContiguous]
  refine ⟨{ threadId := 0, packet := p1 }, ?_, rfl⟩
  cases qrest with
  | nil => simp [mergeSchedule]
  | cons qq qt => simp [mergeSchedule]

/-- C1 witness: two concrete 4076-byte updates (two packets each) under
the alternating schedule produce a non-contiguous channel log. -/
theorem c1_unsynchronized_writers_can_interleave_witness :
    ∃ sched, writesContiguous 0
      (channelLog (generateRawImagePackets 23 6 118 118 (List.replicate 4076 0))
        (generateRawImagePackets 23 6 118 118 (List.replicate 4076 0)) sched) = false :=
  c1_unsynchronized_writers_can_interleave 23 6 118 118 _ _
    (by rw [List.length_replicate]; norm_num) (by rw [List.length_replicate]; norm_num)

end LogiLinux
